import Mathlib

/-!
Verification development for the 370Z-CAN-Logger repository.

Shallow embedding of `src/can_decoder_cli.py`:
  * `PyVal` models the Python values that appear in a decoded-frame dict
    (int, float as rational, str, None, list of ints).
  * `pyIntBase16` models `int(s, 16)` (returns `none` where Python raises
    `ValueError`).
  * `rxMatch` models `re.match` of the pattern
    `(\d+\.\d+)\s+RX:\s+\[(\w+)\]\((\w+)\)\s+(.*)` (the pattern is
    deterministic: every greedy repetition is followed by a character that
    cannot extend it, so maximal munch is equivalent to the regex engine).
  * `parse_line`, `decode_message`, `load_ids`, `insert_decoded_values`
    follow the Python functions of the same names line by line; Python
    floats are modelled as rationals.
-/

namespace CanLogger

/-- A Python value as it occurs in the message dicts of the decoder. -/
inductive PyVal where
  | pyInt : ℤ → PyVal
  | pyFloat : ℚ → PyVal
  | pyStr : String → PyVal
  | pyNone : PyVal
  | pyList : List ℤ → PyVal
  deriving DecidableEq, Repr

/-- A Python dict with string keys, as an insertion-ordered association list
(all dicts built by the decoder have pairwise distinct keys). -/
abbrev Dict := List (String × PyVal)

/-- `d[k]` lookup: first (= only) binding of the key. -/
def dictFind (d : Dict) (k : String) : Option PyVal :=
  match d with
  | [] => none
  | (k2, v) :: rest => if k2 = k then some v else dictFind rest k

/-- `isinstance(value, (int, float))` on a `PyVal`. -/
def isNumericPy : PyVal → Bool
  | .pyInt _ => true
  | .pyFloat _ => true
  | _ => false

/-- Python `\d` on the ASCII inputs the logger handles. -/
def isPyDigit (c : Char) : Bool := c.isDigit

/-- Python `\s` (ASCII part: space, tab, LF, CR, FF, VT). -/
def isPySpace (c : Char) : Bool :=
  c = ' ' ∨ c = '\t' ∨ c = '\n' ∨ c = '\r' ∨ c = '\x0b' ∨ c = '\x0c'

/-- Python `\w` on the ASCII inputs the logger handles. -/
def isPyWord (c : Char) : Bool := c.isAlphanum ∨ c = '_'

/-- Value of one hexadecimal digit character. -/
def hexVal (c : Char) : Option ℕ :=
  if '0' ≤ c ∧ c ≤ '9' then some (c.toNat - '0'.toNat)
  else if 'a' ≤ c ∧ c ≤ 'f' then some (c.toNat - 'a'.toNat + 10)
  else if 'A' ≤ c ∧ c ≤ 'F' then some (c.toNat - 'A'.toNat + 10)
  else none

/-- Hex digits after the first one; a single underscore is allowed between
two digits (Python numeric-literal rule used by `int(s, 16)`). -/
def hexSeq (acc : ℕ) : List Char → Option ℕ
  | [] => some acc
  | '_' :: c :: rest =>
    match hexVal c with
    | some v => hexSeq (acc * 16 + v) rest
    | none => none
  | '_' :: [] => none
  | c :: rest =>
    match hexVal c with
    | some v => hexSeq (acc * 16 + v) rest
    | none => none

/-- A run of hex digits (with interior underscores); must be nonempty and
must not start with an underscore. -/
def hexDigits : List Char → Option ℕ
  | [] => none
  | '_' :: _ => none
  | c :: rest =>
    match hexVal c with
    | some v => hexSeq v rest
    | none => none

/-- After the `0x` prefix Python additionally allows one underscore before
the first digit. -/
def hexAfterPrefix : List Char → Option ℕ
  | '_' :: rest => hexDigits rest
  | cs => hexDigits cs

/-- Sign and optional `0x`/`0X` prefix of `int(s, 16)`. -/
def hexBody : List Char → Option ℤ
  | '0' :: 'x' :: rest => (hexAfterPrefix rest).map (fun n => (n : ℤ))
  | '0' :: 'X' :: rest => (hexAfterPrefix rest).map (fun n => (n : ℤ))
  | cs => (hexDigits cs).map (fun n => (n : ℤ))

/-- Python `s.strip()` on the character list: drop leading and trailing
whitespace. -/
def pyStrip (cs : List Char) : List Char :=
  ((cs.dropWhile isPySpace).reverse.dropWhile isPySpace).reverse

/-- `int(s, 16)`: strip whitespace, optional sign, optional `0x` prefix,
hex digits. `none` models the `ValueError` Python raises otherwise. -/
def pyIntBase16 (s : String) : Option ℤ :=
  match pyStrip s.data with
  | '-' :: rest => (hexBody rest).map (fun z => -z)
  | '+' :: rest => hexBody rest
  | cs => hexBody cs

/-- Decimal digit run to a natural number. -/
def digitsToNat (cs : List Char) : ℕ :=
  cs.foldl (fun a c => a * 10 + (c.toNat - '0'.toNat)) 0

/-- Uppercase hexadecimal digits of a natural number (Python `format(n, 'X')`
for nonnegative `n`). -/
def natHexUpper (n : ℕ) : String :=
  ⟨(Nat.toDigits 16 n).map Char.toUpper⟩

/-- Python `f"0x{n:X}"` (for a negative int Python renders `0x-…`). -/
def fmtCanIdHex (n : ℤ) : String :=
  if n < 0 then "0x-" ++ natHexUpper n.natAbs else "0x" ++ natHexUpper n.toNat

/-- Tokenizer behind Python `s.split()`: whitespace separates tokens, runs
of whitespace yield no empty tokens; `acc` holds the reversed current
token. -/
def splitWsAux : List Char → List Char → List (List Char)
  | [], acc => if acc = [] then [] else [acc.reverse]
  | c :: rest, acc =>
    if isPySpace c then
      if acc = [] then splitWsAux rest [] else acc.reverse :: splitWsAux rest []
    else splitWsAux rest (c :: acc)

/-- Python `s.split()`: split on whitespace runs, dropping empty pieces. -/
def splitWs (s : String) : List String :=
  (splitWsAux s.data []).map (fun cs => ⟨cs⟩)

/-- The four groups of the line pattern, with the timestamp already
converted by `float` (exact decimal value, floats modelled as rationals). -/
structure RxGroups where
  tsVal : ℚ
  idHex : String
  msgType : String
  dataHex : String
  deriving DecidableEq, Repr

/-- `re.match` of `(\d+\.\d+)\s+RX:\s+\[(\w+)\]\((\w+)\)\s+(.*)`: anchored at
the start, `.` does not match a newline, the tail after group 4 is ignored. -/
def rxMatch (cs : List Char) : Option RxGroups :=
  let d1 := cs.takeWhile isPyDigit
  let r1 := cs.dropWhile isPyDigit
  if d1.isEmpty then none else
  match r1 with
  | '.' :: r2 =>
    let d2 := r2.takeWhile isPyDigit
    let r3 := r2.dropWhile isPyDigit
    if d2.isEmpty then none else
    let s1 := r3.takeWhile isPySpace
    let r4 := r3.dropWhile isPySpace
    if s1.isEmpty then none else
    match r4 with
    | 'R' :: 'X' :: ':' :: r5 =>
      let s2 := r5.takeWhile isPySpace
      let r6 := r5.dropWhile isPySpace
      if s2.isEmpty then none else
      match r6 with
      | '[' :: r7 =>
        let w1 := r7.takeWhile isPyWord
        let r8 := r7.dropWhile isPyWord
        if w1.isEmpty then none else
        match r8 with
        | ']' :: '(' :: r9 =>
          let w2 := r9.takeWhile isPyWord
          let r10 := r9.dropWhile isPyWord
          if w2.isEmpty then none else
          match r10 with
          | ')' :: r11 =>
            let s3 := r11.takeWhile isPySpace
            let r12 := r11.dropWhile isPySpace
            if s3.isEmpty then none else
            some { tsVal := (digitsToNat d1 : ℚ) + (digitsToNat d2 : ℚ) / 10 ^ d2.length
                   idHex := ⟨w1⟩
                   msgType := ⟨w2⟩
                   dataHex := ⟨r12.takeWhile (fun c => c ≠ '\n')⟩ }
          | _ => none
        | _ => none
      | _ => none
    | _ => none
  | _ => none

/-- The structured frame returned by `parse_line` (the Python dict of
line 85-92; `can_id_hex` is precomputed, `raw` is the stripped line). -/
structure RawMessage where
  timestamp : ℚ
  can_id : ℤ
  can_id_hex : String
  msg_type : String
  data : List ℤ
  raw : String
  deriving DecidableEq, Repr

/-- `CANMessageParser.parse_line`. `.ok none` is the `return None` on an
unmatched line; `.error ()` models an uncaught `ValueError` raised by
`int(_, 16)` on a matched group that is not valid hexadecimal. -/
def parse_line (line : String) : Except Unit (Option RawMessage) :=
  match rxMatch line.data with
  | none => .ok none
  | some g =>
    match pyIntBase16 g.idHex with
    | none => .error ()
    | some canId =>
      match (splitWs g.dataHex).mapM pyIntBase16 with
      | none => .error ()
      | some dataBytes =>
        .ok (some { timestamp := g.tsVal
                    can_id := canId
                    can_id_hex := fmtCanIdHex canId
                    msg_type := g.msgType
                    data := dataBytes
                    raw := ⟨pyStrip line.data⟩ })

/-- The dict view of a parsed message (`message.copy()` in `decode_message`
starts from exactly these six keys, in insertion order). -/
def RawMessage.toDict (m : RawMessage) : Dict :=
  [("timestamp", .pyFloat m.timestamp),
   ("can_id", .pyInt m.can_id),
   ("can_id_hex", .pyStr m.can_id_hex),
   ("msg_type", .pyStr m.msg_type),
   ("data", .pyList m.data),
   ("raw", .pyStr m.raw)]

/-- One row of the identifier catalog (`ids_of_interest.csv`). -/
structure IdsMeta where
  source : String
  frequency : String
  data_bytes : String
  deriving DecidableEq, Repr

/-- `self.ids_lookup`, a dict keyed by the integer identifier. -/
abbrev Catalog := List (ℤ × IdsMeta)

/-- Dict lookup in the catalog; a later row for the same key overrides an
earlier one, as in a Python dict. -/
def catalogFind (lookup : Catalog) (k : ℤ) : Option IdsMeta :=
  (lookup.reverse.find? (fun p => p.1 = k)).map (fun p => p.2)

/-- `self.ids_lookup[can_id]['source']` with the `'Unknown'` fallback. -/
def sourceOf (lookup : Catalog) (canId : ℤ) : String :=
  match catalogFind lookup canId with
  | some meta => meta.source
  | none => "Unknown"

/-- `self.ids_lookup[can_id]['frequency']` with the `'Unknown'` fallback. -/
def frequencyOf (lookup : Catalog) (canId : ℤ) : String :=
  match catalogFind lookup canId with
  | some meta => meta.frequency
  | none => "Unknown"

/-- Python `round(q, 1)` (round half away from ties is irrelevant here:
modelled with `round`, which agrees with Python at every non-tie). -/
def pyRound1 (q : ℚ) : ℚ := (round (q * 10) : ℤ) / 10

/-- The signal entries added by the `if/elif` chain of
`decode_message` (lines 113-164), in insertion order. -/
def decodeSignals (canId : ℤ) (data : List ℤ) : Dict :=
  if canId = 0x180 then
    if 8 ≤ data.length then
      [("rpm", .pyFloat (((data.getD 0 0 * 256 + data.getD 1 0 : ℤ) : ℚ) / 8)),
       ("throttle_pct", .pyFloat (pyRound1 (((data.getD 5 0 : ℤ) : ℚ) / 255 * 100)))]
    else []
  else if canId = 0x1F9 then
    if 4 ≤ data.length then
      [("rpm", .pyFloat (((data.getD 2 0 * 256 + data.getD 3 0 : ℤ) : ℚ) / 8))]
    else []
  else if canId = 0x280 then
    if 6 ≤ data.length then
      [("speed_kph", .pyFloat (((data.getD 4 0 * 256 + data.getD 5 0 : ℤ) : ℚ) / 100)),
       ("speed_mph", .pyFloat (((data.getD 4 0 * 256 + data.getD 5 0 : ℤ) : ℚ) / 100 * (621371 / 1000000)))]
    else []
  else if canId = 0x002 then
    if 2 ≤ data.length then
      [("steering_angle", .pyFloat
        (if 32767 < data.getD 1 0 * 256 + data.getD 0 0 then
          -(((65535 - (data.getD 1 0 * 256 + data.getD 0 0) : ℤ) : ℚ) / 10)
        else ((data.getD 1 0 * 256 + data.getD 0 0 : ℤ) : ℚ) / 10))]
    else []
  else if canId = 0x551 then
    if 6 ≤ data.length then
      [("engine_temp", .pyInt (data.getD 0 0 - 40)),
       ("cruise_setpoint_kph", if 0 < data.getD 4 0 then .pyInt (data.getD 4 0) else .pyNone),
       ("cruise_status", .pyStr (if data.getD 5 0 = 2 then "Active" else "Inactive"))]
    else []
  else if canId = 0x216 then
    if 1 ≤ data.length then
      [("clutch", .pyStr
        (if data.getD 0 0 = 100 then "Engaged"
         else if data.getD 0 0 = 108 then "Pressed"
         else "Unknown (" ++ toString (data.getD 0 0) ++ ")"))]
    else []
  else if canId = 0x421 then
    if 1 ≤ data.length then
      [("gear", .pyStr
        (if data.getD 0 0 = 24 then "Neutral"
         else if data.getD 0 0 = 128 then "1"
         else if data.getD 0 0 = 16 then "R"
         else "Unknown (" ++ toString (data.getD 0 0) ++ ")"))]
    else []
  else []

/-- `CANMessageParser.decode_message`: `None` passes through; otherwise the
copied base dict, the catalog fields, and the identifier-specific signals. -/
def decode_message (lookup : Catalog) : Option RawMessage → Option Dict
  | none => none
  | some m =>
    some (m.toDict
      ++ [("source", .pyStr (sourceOf lookup m.can_id)),
          ("frequency", .pyStr (frequencyOf lookup m.can_id))]
      ++ decodeSignals m.can_id m.data)

/-- The parse-then-decode step of the read loops (e.g. `read_all`,
lines 261-265): a line that fails to parse yields no frame. -/
def process_line (lookup : Catalog) (line : String) : Option Dict :=
  match parse_line line with
  | .ok (some m) => decode_message lookup (some m)
  | _ => none

/-- Fewest payload bytes the decode rule of an identifier requires
(the `len(data) >= k` guard of each branch; 0 where no rule exists). -/
def requiredLen (canId : ℤ) : ℕ :=
  if canId = 0x180 then 8
  else if canId = 0x1F9 then 4
  else if canId = 0x280 then 6
  else if canId = 0x002 then 2
  else if canId = 0x551 then 6
  else if canId = 0x216 then 1
  else if canId = 0x421 then 1
  else 0

/-- Metadata fields of a catalog row (`row[1]`, `row[2]`, `row[3]`,
read only when the row has at least 4 fields). -/
def metaOfRow (row : List String) : IdsMeta :=
  { source := row.getD 1 ""
    frequency := row.getD 2 ""
    data_bytes := row.getD 3 "" }

/-- `int(row[0].lower().strip(), 16)` of `_load_ids`. -/
def rowKey (row : List String) : Option ℤ :=
  pyIntBase16 ⟨pyStrip ((row.getD 0 "").data.map Char.toLower)⟩

/-- The row loop of `_load_ids`: a row with fewer than 4 fields is skipped;
a row whose identifier fails hex conversion raises `ValueError`, which the
surrounding `except` catches, ending the whole loop with the entries
accumulated so far. -/
def loadRows : List (List String) → Catalog
  | [] => []
  | row :: rest =>
    if 4 ≤ row.length then
      match rowKey row with
      | none => []
      | some n => (n, metaOfRow row) :: loadRows rest
    else loadRows rest

/-- `CANMessageParser._load_ids` on the rows of the descriptor file: an
empty file makes `next(reader)` raise `StopIteration`, caught by the
`except`, giving the empty catalog; otherwise the header row is skipped
and the remaining rows are processed by `loadRows`. -/
def load_ids (rows : List (List String)) : Catalog :=
  match rows with
  | [] => []
  | _ :: rest => loadRows rest

/-- A row with at least 4 fields whose identifier is not valid hex: the row
on which the load loop aborts. -/
def abortRow (row : List String) : Bool :=
  decide (4 ≤ row.length) && (rowKey row).isNone

/-- The catalog entry a single row contributes when it does not abort. -/
def rowEntry (row : List String) : Option (ℤ × IdsMeta) :=
  if 4 ≤ row.length then (rowKey row).map (fun n => (n, metaOfRow row)) else none

/-- One row of the `decoded_values` table as inserted by
`CANDatabase.insert_decoded_values` (columns `timestamp`, `can_id`,
`parameter`, `value`, `session_id`). -/
structure DVRow where
  ts : Option PyVal
  cid : Option PyVal
  param : String
  value : PyVal
  session : String
  deriving DecidableEq, Repr

/-- `CANDatabase.insert_decoded_values`: one insert per dict item whose
value is an `int` or `float` and whose key is neither `timestamp` nor
`can_id`, in dict iteration order. -/
def insert_decoded_values (decoded : Dict) (sid : String) : List DVRow :=
  decoded.filterMap (fun kv =>
    if isNumericPy kv.2 ∧ kv.1 ≠ "timestamp" ∧ kv.1 ≠ "can_id" then
      some { ts := dictFind decoded "timestamp"
             cid := dictFind decoded "can_id"
             param := kv.1
             value := kv.2
             session := sid }
    else none)

/-- `x['timestamp']` as used by the sort key and the replay pacing; decoded
frames always carry the key as a float. -/
def tsOf (d : Dict) : ℚ :=
  match dictFind d "timestamp" with
  | some (.pyFloat q) => q
  | _ => 0

/-- Stable insertion of a message into an already-sorted later segment:
the message goes before the first element not strictly below it, so equal
timestamps keep their original relative order, as with Python `list.sort`. -/
def insertByTs (m : Dict) : List Dict → List Dict
  | [] => [m]
  | x :: xs => if tsOf x < tsOf m then x :: insertByTs m xs else m :: x :: xs

/-- `messages.sort(key=lambda x: x['timestamp'])` (line 512), a stable sort
by timestamp. -/
def sortByTimestamp : List Dict → List Dict
  | [] => []
  | x :: xs => insertByTs x (sortByTimestamp xs)

/-- `ref_timestamp = messages[0]['timestamp']` (the caller guarantees a
nonempty list; 0 is a dummy for the empty case). -/
def refTs (msgs : List Dict) : ℚ :=
  match msgs with
  | [] => 0
  | m :: _ => tsOf m

/-- The replay loop of `_replay_with_curses` (lines 534-558): `clock k` is
the value `time.time()` returns in iteration `k`, `t0` the recorded start
time, `quit k` whether `getch` reports the quit key in iteration `k`.
Iteration `k` at message index `i` either stops (quit), delivers message
`i` when `(clock k - t0) * speed` has reached its timestamp offset, or
idles. Returns the list of delivered messages within `fuel` iterations. -/
def replayLoop (speed t0 : ℚ) (clock : ℕ → ℚ) (quit : ℕ → Bool)
    (msgs : List Dict) : ℕ → ℕ → ℕ → List Dict
  | 0, _, _ => []
  | fuel + 1, k, i =>
    if i < msgs.length then
      if quit k then []
      else if tsOf (msgs.getD i []) - refTs msgs ≤ (clock k - t0) * speed then
        msgs.getD i [] :: replayLoop speed t0 clock quit msgs fuel (k + 1) (i + 1)
      else replayLoop speed t0 clock quit msgs fuel (k + 1) i
    else []

/-- `monitor_file` sorts the decoded messages by timestamp before replaying
them (lines 512-519); delivery starts at index 0 and iteration 0. -/
def monitorFileReplay (speed t0 : ℚ) (clock : ℕ → ℚ) (quit : ℕ → Bool)
    (msgs : List Dict) (fuel : ℕ) : List Dict :=
  replayLoop speed t0 clock quit (sortByTimestamp msgs) fuel 0 0

/-- State of the producer/consumer pair around `message_queue`
(`queue.Queue(maxsize=1000)`, line 296): the queue contents and, between
the producer's `full()` check and its `put`, the frame it is holding. -/
structure QState where
  queue : List Dict
  pending : Option Dict
  deriving DecidableEq

/-- Interleaved steps of the reader thread (lines 313-328) and the
consumer: the producer first checks `full()` — dropping the frame when the
queue is full — and only then calls `put`; the consumer dequeues the front
(`get`). Each constructor is one atomic action of one role. -/
inductive QStep : QState → QState → Prop where
  | checkOk (q : List Dict) (m : Dict) (h : q.length < 1000) :
      QStep ⟨q, none⟩ ⟨q, some m⟩
  | checkFull (q : List Dict) (m : Dict) (h : ¬ q.length < 1000) :
      QStep ⟨q, none⟩ ⟨q, none⟩
  | put (q : List Dict) (m : Dict) :
      QStep ⟨q, some m⟩ ⟨q ++ [m], none⟩
  | get (x : Dict) (q : List Dict) (p : Option Dict) :
      QStep ⟨x :: q, p⟩ ⟨q, p⟩

/-- The initial state: empty queue, producer not holding a frame. -/
def QInit : QState := ⟨[], none⟩

/-- States reachable by any interleaving of producer and consumer steps. -/
def QReachable (s : QState) : Prop := Relation.ReflTransGen QStep QInit s

-- Looking up a signal key in a decoded frame skips the eight base entries,
-- whose keys are fixed, and lands in the identifier-specific signal list.
theorem dictFind_skip_base (m : RawMessage) (lookup : Catalog) (sig : Dict) (k : String)
    (h1 : k ≠ "timestamp") (h2 : k ≠ "can_id") (h3 : k ≠ "can_id_hex")
    (h4 : k ≠ "msg_type") (h5 : k ≠ "data") (h6 : k ≠ "raw")
    (h7 : k ≠ "source") (h8 : k ≠ "frequency") :
    dictFind (m.toDict
      ++ [("source", .pyStr (sourceOf lookup m.can_id)),
          ("frequency", .pyStr (frequencyOf lookup m.can_id))]
      ++ sig) k = dictFind sig k := by
  simp only [RawMessage.toDict, List.cons_append, List.nil_append, dictFind]
  rw [if_neg (fun hh => h1 hh.symm), if_neg (fun hh => h2 hh.symm),
    if_neg (fun hh => h3 hh.symm), if_neg (fun hh => h4 hh.symm),
    if_neg (fun hh => h5 hh.symm), if_neg (fun hh => h6 hh.symm),
    if_neg (fun hh => h7 hh.symm), if_neg (fun hh => h8 hh.symm)]
  rfl

/-- C1 (counterexample): the frame with identifier 0x002 and payload bytes
0x00 0x80 has little-endian raw value 32768, and the decoder yields the
steering angle -(65535 - 32768) / 10 = -3276.7 (written -32767/10), not the
-326.7 the claim computes. -/
theorem steering_raw_32768_is_neg_3276_7 :
    dictFind ((decode_message [] (some
        { timestamp := 0, can_id := 0x002, can_id_hex := "0x2", msg_type := "std",
          data := [0, 128], raw := "" })).getD []) "steering_angle"
      = some (.pyFloat (-32767 / 10)) ∧
    dictFind ((decode_message [] (some
        { timestamp := 0, can_id := 0x002, can_id_hex := "0x2", msg_type := "std",
          data := [0, 128], raw := "" })).getD []) "steering_angle"
      ≠ some (.pyFloat (-3267 / 10)) := by
  constructor
  · simp [decode_message, decodeSignals, RawMessage.toDict, dictFind, sourceOf,
      frequencyOf, catalogFind]
    norm_num
  · simp [decode_message, decodeSignals, RawMessage.toDict, dictFind, sourceOf,
      frequencyOf, catalogFind]
    norm_num

/-- C1 (amended): for every frame with identifier 0x002 and at least 2
payload bytes, the two bytes are combined little-endian (low byte first)
into the raw value; above 32767 the angle is -((65535 - raw) / 10),
otherwise raw / 10. Raw value 32768 gives -3276.7 (not -326.7) and bytes
0x64 0x00 (raw 100) give 10.0. -/
theorem steering_angle_signed_magnitude (lookup : Catalog) (m : RawMessage)
    (hid : m.can_id = 0x002) (h : 2 ≤ m.data.length) :
    dictFind ((decode_message lookup (some m)).getD []) "steering_angle" =
      some (.pyFloat
        (if 32767 < m.data.getD 1 0 * 256 + m.data.getD 0 0 then
          -(((65535 - (m.data.getD 1 0 * 256 + m.data.getD 0 0) : ℤ) : ℚ) / 10)
        else ((m.data.getD 1 0 * 256 + m.data.getD 0 0 : ℤ) : ℚ) / 10)) ∧
    (m.data.getD 1 0 * 256 + m.data.getD 0 0 = 32768 →
      dictFind ((decode_message lookup (some m)).getD []) "steering_angle" =
        some (.pyFloat (-32767 / 10))) ∧
    (m.data.getD 0 0 = 100 → m.data.getD 1 0 = 0 →
      dictFind ((decode_message lookup (some m)).getD []) "steering_angle" =
        some (.pyFloat 10)) := by
  have hsig : decodeSignals m.can_id m.data =
      [("steering_angle", .pyFloat
        (if 32767 < m.data.getD 1 0 * 256 + m.data.getD 0 0 then
          -(((65535 - (m.data.getD 1 0 * 256 + m.data.getD 0 0) : ℤ) : ℚ) / 10)
        else ((m.data.getD 1 0 * 256 + m.data.getD 0 0 : ℤ) : ℚ) / 10))] := by
    rw [hid]
    norm_num [decodeSignals, h]
  have hmain : dictFind ((decode_message lookup (some m)).getD []) "steering_angle" =
      some (.pyFloat
        (if 32767 < m.data.getD 1 0 * 256 + m.data.getD 0 0 then
          -(((65535 - (m.data.getD 1 0 * 256 + m.data.getD 0 0) : ℤ) : ℚ) / 10)
        else ((m.data.getD 1 0 * 256 + m.data.getD 0 0 : ℤ) : ℚ) / 10)) := by
    show dictFind (m.toDict ++ _ ++ decodeSignals m.can_id m.data) "steering_angle" = _
    rw [dictFind_skip_base m lookup _ _ (by decide) (by decide) (by decide) (by decide)
      (by decide) (by decide) (by decide) (by decide), hsig]
    simp [dictFind]
  refine ⟨hmain, fun hraw => ?_, fun h0 h1 => ?_⟩
  · rw [hmain, hraw]
    norm_num
  · rw [hmain, h0, h1]
    norm_num

/-- C1 witness: the amended steering theorem applied to the concrete frame
with bytes 0x00 0x80 (raw 32768). -/
theorem steering_angle_signed_magnitude_witness :
    dictFind ((decode_message [] (some
        { timestamp := 0, can_id := 0x002, can_id_hex := "0x2", msg_type := "std",
          data := [0, 128], raw := "x" })).getD []) "steering_angle"
      = some (.pyFloat (-32767 / 10)) :=
  (steering_angle_signed_magnitude []
    { timestamp := 0, can_id := 0x002, can_id_hex := "0x2", msg_type := "std",
      data := [0, 128], raw := "x" } rfl (by decide)).2.1 (by decide)

/-- C2 (code divergence): the line matches the parser pattern (the
identifier group is `\w+`), but the identifier token XYZ is not valid
hexadecimal, so `int('XYZ', 16)` raises ValueError instead of the parser
returning NoMatch; `.error ()` models that uncaught exception. -/
theorem parse_line_raises_on_nonhex_identifier :
    parse_line "1000.0 RX: [XYZ](std) 11" = .error () := rfl

/-- C3: feeding the end-to-end line through parse then decode yields a
frame with identifier 0x180, RPM 250.0 and throttle 50.2 (= 251/5),
whatever the identifier catalog contains. -/
theorem end_to_end_scenario (lookup : Catalog) :
    ∃ m, parse_line "1000.250 RX: [0180](ext) 07 D0 00 00 00 80 00 00" = Except.ok (some m) ∧
      dictFind ((decode_message lookup (some m)).getD []) "can_id" = some (.pyInt 0x180) ∧
      dictFind ((decode_message lookup (some m)).getD []) "rpm" = some (.pyFloat 250) ∧
      dictFind ((decode_message lookup (some m)).getD []) "throttle_pct" =
        some (.pyFloat (251 / 5)) := by
  refine ⟨_, rfl, ?_, ?_, ?_⟩
  · have hc : ∀ x : RawMessage, x.can_id = 0x180 →
        dictFind ((decode_message lookup (some x)).getD []) "can_id" =
          some (.pyInt 0x180) := by
      intro x hx
      simp only [decode_message, Option.getD_some, RawMessage.toDict, List.cons_append,
        dictFind]
      simp [hx]
    exact hc _ (by decide)
  · have hr : ∀ x : RawMessage, x.can_id = 0x180 → x.data = [7, 208, 0, 0, 0, 128, 0, 0] →
        dictFind ((decode_message lookup (some x)).getD []) "rpm" =
          some (.pyFloat 250) := by
      intro x hx hd
      show dictFind (x.toDict ++ _ ++ decodeSignals x.can_id x.data) "rpm" = _
      rw [dictFind_skip_base x lookup _ _ (by decide) (by decide) (by decide) (by decide)
        (by decide) (by decide) (by decide) (by decide), hx, hd]
      norm_num [decodeSignals, dictFind]
    exact hr _ (by decide) (by decide)
  · have ht : ∀ x : RawMessage, x.can_id = 0x180 → x.data = [7, 208, 0, 0, 0, 128, 0, 0] →
        dictFind ((decode_message lookup (some x)).getD []) "throttle_pct" =
          some (.pyFloat (251 / 5)) := by
      intro x hx hd
      show dictFind (x.toDict ++ _ ++ decodeSignals x.can_id x.data) "throttle_pct" = _
      rw [dictFind_skip_base x lookup _ _ (by decide) (by decide) (by decide) (by decide)
        (by decide) (by decide) (by decide) (by decide), hx, hd]
      norm_num [decodeSignals, dictFind, pyRound1, round_eq]
      decide
    exact ht _ (by decide) (by decide)

/-- C4 (counterexample): a frame with identifier 0x551, 6 payload bytes and
setpoint byte 0 carries the key cruise_setpoint_kph bound to None — the key
is present with a null value, not absent as the claim states. -/
theorem cruise_zero_setpoint_key_present :
    dictFind ((decode_message [] (some
        { timestamp := 0, can_id := 0x551, can_id_hex := "0x551", msg_type := "std",
          data := [80, 0, 0, 0, 0, 2], raw := "" })).getD []) "cruise_setpoint_kph"
      = some PyVal.pyNone := by
  decide

/-- C4 (amended): for every frame with identifier 0x551 and at least 6
payload bytes, a setpoint byte of 0 is surfaced as the key bound to a null
value (None), a setpoint byte above 0 as that value, and the cruise status
is Active if and only if the status byte equals exactly 2, and Inactive for
every other status byte. -/
theorem cruise_control_decode (lookup : Catalog) (m : RawMessage)
    (hid : m.can_id = 0x551) (h : 6 ≤ m.data.length) :
    (m.data.getD 4 0 = 0 →
      dictFind ((decode_message lookup (some m)).getD []) "cruise_setpoint_kph" =
        some PyVal.pyNone) ∧
    (0 < m.data.getD 4 0 →
      dictFind ((decode_message lookup (some m)).getD []) "cruise_setpoint_kph" =
        some (.pyInt (m.data.getD 4 0))) ∧
    (dictFind ((decode_message lookup (some m)).getD []) "cruise_status" =
        some (.pyStr "Active") ↔ m.data.getD 5 0 = 2) ∧
    (m.data.getD 5 0 ≠ 2 →
      dictFind ((decode_message lookup (some m)).getD []) "cruise_status" =
        some (.pyStr "Inactive")) := by
  have hsig : decodeSignals m.can_id m.data =
      [("engine_temp", .pyInt (m.data.getD 0 0 - 40)),
       ("cruise_setpoint_kph",
         if 0 < m.data.getD 4 0 then .pyInt (m.data.getD 4 0) else PyVal.pyNone),
       ("cruise_status",
         .pyStr (if m.data.getD 5 0 = 2 then "Active" else "Inactive"))] := by
    rw [hid]
    norm_num [decodeSignals, h]
  have hset : dictFind ((decode_message lookup (some m)).getD []) "cruise_setpoint_kph" =
      some (if 0 < m.data.getD 4 0 then .pyInt (m.data.getD 4 0) else PyVal.pyNone) := by
    show dictFind (m.toDict ++ _ ++ decodeSignals m.can_id m.data) "cruise_setpoint_kph" = _
    rw [dictFind_skip_base m lookup _ _ (by decide) (by decide) (by decide) (by decide)
      (by decide) (by decide) (by decide) (by decide), hsig]
    simp [dictFind]
  have hstat : dictFind ((decode_message lookup (some m)).getD []) "cruise_status" =
      some (.pyStr (if m.data.getD 5 0 = 2 then "Active" else "Inactive")) := by
    show dictFind (m.toDict ++ _ ++ decodeSignals m.can_id m.data) "cruise_status" = _
    rw [dictFind_skip_base m lookup _ _ (by decide) (by decide) (by decide) (by decide)
      (by decide) (by decide) (by decide) (by decide), hsig]
    simp [dictFind]
  refine ⟨fun h0 => ?_, fun hp => ?_, ?_, fun hne => ?_⟩
  · rw [hset, h0]
    norm_num
  · rw [hset, if_pos hp]
  · rw [hstat]
    by_cases h2 : m.data.getD 5 0 = 2
    · simp [h2]
    · simp [h2]
  · rw [hstat, if_neg hne]

/-- C4 witness: the amended cruise theorem applied to the concrete frame
with setpoint byte 0 and status byte 2. -/
theorem cruise_control_decode_witness :
    dictFind ((decode_message [] (some
        { timestamp := 0, can_id := 0x551, can_id_hex := "0x551", msg_type := "std",
          data := [80, 0, 0, 0, 0, 2], raw := "y" })).getD []) "cruise_setpoint_kph"
      = some PyVal.pyNone :=
  (cruise_control_decode []
    { timestamp := 0, can_id := 0x551, can_id_hex := "0x551", msg_type := "std",
      data := [80, 0, 0, 0, 0, 2], raw := "y" } rfl (by decide)).1 rfl

/-- C5 (counterexample): the gear decode of byte 0x99 (153) yields the
string "Unknown (153)" — with a space before the parenthesis — not the
"Unknown(153)" the claim states. -/
theorem gear_153_unknown_has_space :
    dictFind ((decode_message [] (some
        { timestamp := 0, can_id := 0x421, can_id_hex := "0x421", msg_type := "std",
          data := [153], raw := "" })).getD []) "gear"
      = some (.pyStr "Unknown (153)") ∧
    dictFind ((decode_message [] (some
        { timestamp := 0, can_id := 0x421, can_id_hex := "0x421", msg_type := "std",
          data := [153], raw := "" })).getD []) "gear"
      ≠ some (.pyStr "Unknown(153)") := by
  constructor
  · decide
  · decide

/-- C5 (amended): for every frame with identifier 0x421 and at least 1
payload byte, byte 24 maps to "Neutral", 128 to "1", 16 to "R", and any
other byte v to the string "Unknown (<v>)" (with a space before the
parenthesis); in particular byte 0x99 maps to "Unknown (153)". -/
theorem gear_position_decode (lookup : Catalog) (m : RawMessage)
    (hid : m.can_id = 0x421) (h : 1 ≤ m.data.length) :
    dictFind ((decode_message lookup (some m)).getD []) "gear" =
      some (.pyStr
        (if m.data.getD 0 0 = 24 then "Neutral"
         else if m.data.getD 0 0 = 128 then "1"
         else if m.data.getD 0 0 = 16 then "R"
         else "Unknown (" ++ toString (m.data.getD 0 0) ++ ")")) ∧
    (m.data.getD 0 0 = 153 →
      dictFind ((decode_message lookup (some m)).getD []) "gear" =
        some (.pyStr "Unknown (153)")) := by
  have hsig : decodeSignals m.can_id m.data =
      [("gear", .pyStr
        (if m.data.getD 0 0 = 24 then "Neutral"
         else if m.data.getD 0 0 = 128 then "1"
         else if m.data.getD 0 0 = 16 then "R"
         else "Unknown (" ++ toString (m.data.getD 0 0) ++ ")"))] := by
    rw [hid]
    norm_num [decodeSignals, h]
  have hmain : dictFind ((decode_message lookup (some m)).getD []) "gear" =
      some (.pyStr
        (if m.data.getD 0 0 = 24 then "Neutral"
         else if m.data.getD 0 0 = 128 then "1"
         else if m.data.getD 0 0 = 16 then "R"
         else "Unknown (" ++ toString (m.data.getD 0 0) ++ ")")) := by
    show dictFind (m.toDict ++ _ ++ decodeSignals m.can_id m.data) "gear" = _
    rw [dictFind_skip_base m lookup _ _ (by decide) (by decide) (by decide) (by decide)
      (by decide) (by decide) (by decide) (by decide), hsig]
    simp [dictFind]
  refine ⟨hmain, fun h153 => ?_⟩
  rw [hmain, h153]
  decide

/-- C5 witness: the amended gear theorem applied to the concrete frame
with payload byte 153. -/
theorem gear_position_decode_witness :
    dictFind ((decode_message [] (some
        { timestamp := 0, can_id := 0x421, can_id_hex := "0x421", msg_type := "std",
          data := [153], raw := "z" })).getD []) "gear"
      = some (.pyStr "Unknown (153)") :=
  (gear_position_decode []
    { timestamp := 0, can_id := 0x421, can_id_hex := "0x421", msg_type := "std",
      data := [153], raw := "z" } rfl (by decide)).2 rfl

/-- C7 (counterexample): a well-formed row after a row with a non-hex
identifier is not loaded — the bad row aborts the remaining rows instead of
being individually skipped. -/
theorem load_ids_bad_row_aborts_rest :
    load_ids [["id", "source", "freq", "bytes"],
              ["1", "a", "b", "c"],
              ["zz", "a", "b", "c"],
              ["2", "d", "e", "f"]]
      = [(1, { source := "a", frequency := "b", data_bytes := "c" })] ∧
    catalogFind (load_ids [["id", "source", "freq", "bytes"],
              ["1", "a", "b", "c"],
              ["zz", "a", "b", "c"],
              ["2", "d", "e", "f"]]) 2 = none := by
  constructor
  · decide
  · decide

/-- C7 (amended): catalog load never raises; after the header row, rows
with fewer than 4 fields are individually skipped, but the first row whose
identifier fails hexadecimal conversion aborts the load, keeping exactly
the entries of the earlier rows: the result is the row list truncated at
the first aborting row, filtered through the per-row entry function. An
empty descriptor loads the empty catalog. -/
theorem load_ids_prefix_until_abort :
    load_ids [] = [] ∧
    ∀ hdr rest, load_ids (hdr :: rest) =
      (rest.takeWhile (fun r => !abortRow r)).filterMap rowEntry := by
  constructor
  · rfl
  intro hdr rest
  show loadRows rest = _
  induction rest with
  | nil => rfl
  | cons row rest ih =>
    by_cases h4 : 4 ≤ row.length
    · cases hk : rowKey row with
      | none =>
        simp [loadRows, abortRow, rowEntry, h4, hk]
      | some n =>
        simp [loadRows, abortRow, rowEntry, h4, hk, ih]
    · simp [loadRows, abortRow, rowEntry, h4, ih]

-- A payload shorter than the guard of the rule of an identifier, or an
-- empty payload, produces no signal entries.
theorem decodeSignals_nil_of_short_or_empty (canId : ℤ) (data : List ℤ)
    (h : data.length < requiredLen canId ∨ data = []) :
    decodeSignals canId data = [] := by
  have hlen : data.length < requiredLen canId ∨ data.length = 0 := by
    cases h with
    | inl h => exact Or.inl h
    | inr h => exact Or.inr (by rw [h]; rfl)
  unfold requiredLen at hlen
  unfold decodeSignals
  by_cases h1 : canId = 0x180
  · rw [if_pos h1] at hlen
    rw [if_pos h1, if_neg (by omega)]
  · rw [if_neg h1] at hlen
    rw [if_neg h1]
    by_cases h2 : canId = 0x1F9
    · rw [if_pos h2] at hlen
      rw [if_pos h2, if_neg (by omega)]
    · rw [if_neg h2] at hlen
      rw [if_neg h2]
      by_cases h3 : canId = 0x280
      · rw [if_pos h3] at hlen
        rw [if_pos h3, if_neg (by omega)]
      · rw [if_neg h3] at hlen
        rw [if_neg h3]
        by_cases h4 : canId = 0x002
        · rw [if_pos h4] at hlen
          rw [if_pos h4, if_neg (by omega)]
        · rw [if_neg h4] at hlen
          rw [if_neg h4]
          by_cases h5 : canId = 0x551
          · rw [if_pos h5] at hlen
            rw [if_pos h5, if_neg (by omega)]
          · rw [if_neg h5] at hlen
            rw [if_neg h5]
            by_cases h6 : canId = 0x216
            · rw [if_pos h6] at hlen
              rw [if_pos h6, if_neg (by omega)]
            · rw [if_neg h6] at hlen
              rw [if_neg h6]
              by_cases h7 : canId = 0x421
              · rw [if_pos h7] at hlen
                rw [if_pos h7, if_neg (by omega)]
              · rw [if_neg h7]

/-- C6: a frame whose payload is shorter than its identifier's decode rule
requires is decoded to exactly the base fields plus catalog fields — the
rule's signal keys are omitted, nothing is garbled, nothing raises; and a
frame with an empty payload decodes to the base fields only rather than
being discarded. -/
theorem decode_short_payload (lookup : Catalog) (m : RawMessage) :
    (m.data.length < requiredLen m.can_id →
      decode_message lookup (some m) =
        some (m.toDict ++ [("source", .pyStr (sourceOf lookup m.can_id)),
                           ("frequency", .pyStr (frequencyOf lookup m.can_id))])) ∧
    (m.data = [] →
      decode_message lookup (some m) =
        some (m.toDict ++ [("source", .pyStr (sourceOf lookup m.can_id)),
                           ("frequency", .pyStr (frequencyOf lookup m.can_id))])) := by
  constructor
  · intro h
    simp [decode_message,
      decodeSignals_nil_of_short_or_empty m.can_id m.data (Or.inl h)]
  · intro h
    simp [decode_message,
      decodeSignals_nil_of_short_or_empty m.can_id m.data (Or.inr h)]

/-- C6 witness: a frame with identifier 0x180 and empty payload satisfies
both hypotheses and decodes to the base fields only. -/
theorem decode_short_payload_witness :
    decode_message []
        (some
          { timestamp := 0, can_id := 0x180, can_id_hex := "0x180", msg_type := "std",
            data := [], raw := "w" }) =
      some
        (({ timestamp := 0, can_id := 0x180, can_id_hex := "0x180", msg_type := "std",
            data := [], raw := "w" } : RawMessage).toDict
          ++ [("source", .pyStr (sourceOf [] 0x180)),
              ("frequency", .pyStr (frequencyOf [] 0x180))]) ∧
    decode_message []
        (some
          { timestamp := 0, can_id := 0x180, can_id_hex := "0x180", msg_type := "std",
            data := [], raw := "w" }) =
      some
        (({ timestamp := 0, can_id := 0x180, can_id_hex := "0x180", msg_type := "std",
            data := [], raw := "w" } : RawMessage).toDict
          ++ [("source", .pyStr (sourceOf [] 0x180)),
              ("frequency", .pyStr (frequencyOf [] 0x180))]) :=
  ⟨(decode_short_payload [] _).1 (by decide), (decode_short_payload [] _).2 rfl⟩

-- Whatever the clock, the speed and the quit stream do, the replay loop
-- emits a contiguous initial block of the remaining messages, in order.
theorem replayLoop_take (speed t0 : ℚ) (clock : ℕ → ℚ) (quit : ℕ → Bool)
    (msgs : List Dict) :
    ∀ fuel k i, ∃ n,
      replayLoop speed t0 clock quit msgs fuel k i = (msgs.drop i).take n := by
  intro fuel
  induction fuel with
  | zero => exact fun k i => ⟨0, rfl⟩
  | succ fuel ih =>
    intro k i
    by_cases hi : i < msgs.length
    · by_cases hq : quit k = true
      · refine ⟨0, ?_⟩
        simp only [replayLoop]
        rw [if_pos hi, if_pos hq]
        rfl
      · by_cases hd : tsOf (msgs.getD i []) - refTs msgs ≤ (clock k - t0) * speed
        · obtain ⟨n, hn⟩ := ih (k + 1) (i + 1)
          refine ⟨n + 1, ?_⟩
          simp only [replayLoop]
          rw [if_pos hi, if_neg hq, if_pos hd, hn]
          rw [List.drop_eq_getElem_cons hi, List.getD_eq_getElem _ _ hi]
          rfl
        · obtain ⟨n, hn⟩ := ih (k + 1) i
          refine ⟨n, ?_⟩
          simp only [replayLoop]
          rw [if_pos hi, if_neg hq, if_neg hd, hn]
    · refine ⟨0, ?_⟩
      simp only [replayLoop]
      rw [if_neg hi]
      rfl

-- When quitting never happens and the clock has advanced far enough at
-- every step, the loop delivers every remaining message.
theorem replayLoop_complete (speed t0 : ℚ) (clock : ℕ → ℚ) (quit : ℕ → Bool)
    (msgs : List Dict) (hq : ∀ k, quit k = false) :
    ∀ fuel k i,
      (∀ d, i + d < msgs.length →
        tsOf (msgs.getD (i + d) []) - refTs msgs ≤ (clock (k + d) - t0) * speed) →
      msgs.length - i ≤ fuel →
      replayLoop speed t0 clock quit msgs fuel k i = msgs.drop i := by
  intro fuel
  induction fuel with
  | zero =>
    intro k i hcond hlen
    have hge : msgs.length ≤ i := by omega
    simp only [replayLoop]
    exact (List.drop_eq_nil_of_le hge).symm
  | succ fuel ih =>
    intro k i hcond hlen
    by_cases hi : i < msgs.length
    · have hc0 : tsOf (msgs.getD i []) - refTs msgs ≤ (clock k - t0) * speed := by
        have h0 := hcond 0 (by omega)
        simpa using h0
      have hrec := ih (k + 1) (i + 1)
        (fun d hd => by
          have hs := hcond (d + 1) (by omega)
          have e1 : i + (d + 1) = i + 1 + d := by omega
          have e2 : k + (d + 1) = k + 1 + d := by omega
          rw [e1, e2] at hs
          exact hs)
        (by omega)
      simp only [replayLoop]
      rw [if_pos hi, if_neg (by simp [hq k]), if_pos hc0, hrec]
      rw [List.drop_eq_getElem_cons hi, List.getD_eq_getElem _ _ hi]
    · have hge : msgs.length ≤ i := by omega
      simp only [replayLoop]
      rw [if_neg hi]
      exact (List.drop_eq_nil_of_le hge).symm

/-- C8: the file replay delivers a prefix of the timestamp-sorted message
sequence in sorted order, for every speed multiplier, clock behaviour and
quit stream; and when no quit occurs and the scaled clock has passed every
message's timestamp offset within the iteration budget, the delivery is
exactly the timestamp-sorted sequence — the multiplier only affects when
the pacing condition becomes true, never the order. -/
theorem replay_delivery_order (msgs : List Dict) (speed t0 : ℚ) (clock : ℕ → ℚ)
    (quit : ℕ → Bool) (fuel : ℕ) :
    (∃ n, monitorFileReplay speed t0 clock quit msgs fuel =
      (sortByTimestamp msgs).take n) ∧
    ((∀ k, quit k = false) →
      (∀ k, k < (sortByTimestamp msgs).length →
        tsOf ((sortByTimestamp msgs).getD k []) - refTs (sortByTimestamp msgs) ≤
          (clock k - t0) * speed) →
      (sortByTimestamp msgs).length ≤ fuel →
      monitorFileReplay speed t0 clock quit msgs fuel = sortByTimestamp msgs) := by
  constructor
  · simpa [monitorFileReplay] using
      replayLoop_take speed t0 clock quit (sortByTimestamp msgs) fuel 0 0
  · intro hq hcond hlen
    have hall := replayLoop_complete speed t0 clock quit (sortByTimestamp msgs) hq fuel 0 0
      (fun d hd => by simpa using hcond d (by simpa using hd)) (by omega)
    simpa [monitorFileReplay] using hall

/-- C8 witness: two messages given out of timestamp order, replayed at
speed 2 under a clock that has already passed both offsets, are delivered
as exactly the timestamp-sorted sequence. -/
theorem replay_delivery_order_witness :
    monitorFileReplay 2 0 (fun k => (k : ℚ) + 100) (fun _ => false)
        [[("timestamp", .pyFloat 2)], [("timestamp", .pyFloat 1)]] 2 =
      sortByTimestamp [[("timestamp", .pyFloat 2)], [("timestamp", .pyFloat 1)]] := by
  have hs : sortByTimestamp [[("timestamp", PyVal.pyFloat 2)], [("timestamp", PyVal.pyFloat 1)]] =
      [[("timestamp", PyVal.pyFloat 1)], [("timestamp", PyVal.pyFloat 2)]] := by
    norm_num [sortByTimestamp, insertByTs, tsOf, dictFind]
  refine (replay_delivery_order _ _ _ _ _ _).2 (fun _ => rfl) ?_ ?_
  · intro k hk
    rw [hs] at hk ⊢
    have hk2 : k < 2 := by simpa using hk
    interval_cases k
    · norm_num [tsOf, refTs, dictFind, List.getD]
    · norm_num [tsOf, refTs, dictFind, List.getD]
  · rw [hs]
    norm_num

/-- C9: in every interleaving of the reader thread and the consumer, the
bounded queue holds at most its capacity of 1000 entries, and whenever the
producer has passed its fullness check and is about to put, the queue is
strictly below capacity — the put can never block waiting for the
consumer (a full queue at check time drops the frame instead). -/
theorem queue_bounded_drop_on_full (s : QState) (h : QReachable s) :
    s.queue.length ≤ 1000 ∧ (∀ m, s.pending = some m → s.queue.length < 1000) := by
  induction h with
  | refl => simp [QInit]
  | tail _ step ih =>
    cases step with
    | checkOk q m hlt =>
      exact ⟨ih.1, fun m2 _ => hlt⟩
    | checkFull q m hnlt =>
      exact ih
    | put q m =>
      have h2 : q.length < 1000 := ih.2 m rfl
      refine ⟨?_, fun m2 hm2 => Option.noConfusion hm2⟩
      show (q ++ [m]).length ≤ 1000
      simp only [List.length_append, List.length_cons, List.length_nil]
      omega
    | get x q p =>
      have h1 : (x :: q).length ≤ 1000 := ih.1
      simp only [List.length_cons] at h1
      refine ⟨?_, fun m2 hm2 => ?_⟩
      · show q.length ≤ 1000
        omega
      · have h2 : (x :: q).length < 1000 := ih.2 m2 hm2
        simp only [List.length_cons] at h2
        show q.length < 1000
        omega

/-- C9 witness: after one check-then-put of a decoded frame from the empty
initial state, the reached state satisfies the capacity bound and the
no-stall condition. -/
theorem queue_bounded_drop_on_full_witness :
    (⟨[[("rpm", .pyFloat 250)]], none⟩ : QState).queue.length ≤ 1000 ∧
    (∀ m, (⟨[[("rpm", .pyFloat 250)]], none⟩ : QState).pending = some m →
      (⟨[[("rpm", .pyFloat 250)]], none⟩ : QState).queue.length < 1000) :=
  queue_bounded_drop_on_full _
    (Relation.ReflTransGen.head (QStep.checkOk [] [("rpm", .pyFloat 250)] (by norm_num))
      (Relation.ReflTransGen.head (QStep.put [] [("rpm", .pyFloat 250)])
        Relation.ReflTransGen.refl))

/-- C10: the decoded-values insert writes one row per dict entry whose
value is an int or float and whose key is neither timestamp nor can_id —
exactly those — and every written row has a numeric value, so categorical
signals (strings) and a null cruise setpoint are never written. -/
theorem insert_decoded_values_exactly_numeric (decoded : Dict) (sid : String) :
    (∀ k v,
      ((⟨dictFind decoded "timestamp", dictFind decoded "can_id", k, v, sid⟩ : DVRow) ∈
          insert_decoded_values decoded sid) ↔
        ((k, v) ∈ decoded ∧ isNumericPy v = true ∧ k ≠ "timestamp" ∧ k ≠ "can_id")) ∧
    (∀ r, r ∈ insert_decoded_values decoded sid → isNumericPy r.value = true) := by
  constructor
  · intro k v
    constructor
    · intro hmem
      simp only [insert_decoded_values, List.mem_filterMap] at hmem
      obtain ⟨⟨k2, v2⟩, hin, hf⟩ := hmem
      dsimp only at hf
      by_cases hc : isNumericPy v2 = true ∧ k2 ≠ "timestamp" ∧ k2 ≠ "can_id"
      · rw [if_pos hc] at hf
        simp only [Option.some.injEq, DVRow.mk.injEq] at hf
        obtain ⟨-, -, hk, hv, -⟩ := hf
        subst hk
        subst hv
        exact ⟨hin, hc⟩
      · rw [if_neg hc] at hf
        exact absurd hf (by simp)
    · rintro ⟨hin, hnum, h1, h2⟩
      simp only [insert_decoded_values, List.mem_filterMap]
      refine ⟨(k, v), hin, ?_⟩
      dsimp only
      rw [if_pos ⟨hnum, h1, h2⟩]
  · intro r hr
    simp only [insert_decoded_values, List.mem_filterMap] at hr
    obtain ⟨⟨k2, v2⟩, hin, hf⟩ := hr
    dsimp only at hf
    by_cases hc : isNumericPy v2 = true ∧ k2 ≠ "timestamp" ∧ k2 ≠ "can_id"
    · rw [if_pos hc] at hf
      simp only [Option.some.injEq] at hf
      rw [← hf]
      exact hc.1
    · rw [if_neg hc] at hf
      exact absurd hf (by simp)

/-- C10 witness: in a dict holding a numeric rpm entry and its timestamp,
the rpm row is inserted and its value is numeric. -/
theorem insert_decoded_values_exactly_numeric_witness :
    isNumericPy (⟨some (.pyFloat 0), none, "rpm", .pyFloat 250, "s"⟩ : DVRow).value = true :=
  (insert_decoded_values_exactly_numeric
    [("timestamp", .pyFloat 0), ("rpm", .pyFloat 250)] "s").2 _ (by decide)

end CanLogger
